import Mathlib

/-!
Verification development for the SteamAPI repository.

The repository is a thin TypeScript client around the Steam Web API.  Its
logic lives in `SteamAPIController` (current module, file `part_000`) and in
an older variant (`src/index.ts`, embedded below under namespace `Legacy`).
This file gives a shallow embedding of that logic:

* pure string manipulation (`resolveURL`) is embedded over `List Char`,
  mirroring the two JavaScript regexes `http[s]{0,1}://steamcommunity.com/profiles/`
  and `http[s]{0,1}://steamcommunity.com/id/` (each matches one of two
  literal strings, leftmost occurrence first, and `String.replace` with a
  non-global regex or a plain string replaces only the first occurrence);
* the external `SteamID` constructor (npm package `steamid`, not part of
  this repository) is a parameter `parse : Parse` wherever the claims allow,
  and is otherwise modelled from the spec as `parseSteamID`;
* network effects (`axios.get`) are modelled by an oracle
  `net : String → NetReply α` keyed by the request URL; every effectful
  function returns, next to its `Except` result, the list of URLs it
  contacted, so "no network call" is expressible;
* the module-level mutable `apiKey` slot is explicit state `ApiState`.
-/

set_option maxRecDepth 4096

deriving instance DecidableEq for Except

/-- Model of a constructed `SteamID` value: the canonical 64-bit numeric
identifier.  The npm `steamid` object is opaque here; the repository only
ever calls `getSteamID64()` on it. -/
structure SteamID where
  id64 : Nat
deriving DecidableEq, Repr

/-- Mirrors `SteamID.prototype.getSteamID64`, which renders the canonical
64-bit decimal string. -/
def SteamID.getSteamID64 (s : SteamID) : String :=
  toString s.id64

/-- The type of the external `new SteamID(string)` constructor: `some` when
construction succeeds, `none` when the constructor throws.  The constructor
is deterministic, so one function models repeated construction of the same
string. -/
def Parse : Type :=
  String → Option SteamID

/-- Fold a digit list into the number it denotes, most significant first. -/
def digitsVal (l : List Char) : Nat :=
  l.foldl (fun a c => a * 10 + (c.toNat - 48)) 0

/-- Modelled from the spec: the external identifier constructor (npm package
`steamid`), which is not part of this repository.  Per the spec an
Identifier is "constructible from a 64-bit numeric string directly" (legacy
short forms also exist but the spec does not describe their grammar, and no
claim depends on them): construction succeeds exactly on nonempty all-digit
strings whose value fits in 64 bits. -/
def parseSteamID (s : String) : Option SteamID :=
  if !s.data.isEmpty && s.data.all Char.isDigit && decide (digitsVal s.data < 2 ^ 64) then
    some ⟨digitsVal s.data⟩
  else
    none

/-- Errors thrown by the embedded functions (JavaScript `throw` values). -/
inductive ResolveError where
  /-- The `steamid` constructor threw (unrecognized identifier format). -/
  | invalidFormat
  /-- The literal throw `'Not a valid SteamID'` in `resolveVanityUrl`. -/
  | notValidSteamID
  /-- The literal throw `'Could not reach the VanityURL API'`. -/
  | couldNotReach
  /-- A rejected `axios.get` promise (transport failure). -/
  | network
  /-- The throw `'Only 100 steamIDs can be requested at a time!'`. -/
  | tooManyTargets
deriving DecidableEq, Repr

/-- Outcome of one `axios.get`: the promise either rejects (`reject`) or
resolves; a resolved value is modelled as `Option α` so that the code's
JavaScript truthiness guard `if (response)` on the resolved value is
expressible (`none` is a falsy response). -/
inductive NetReply (α : Type) where
  | reject
  | resolve (response : Option α)

/-- Mirror of the module-level mutable slot `let apiKey: string = ''`. -/
structure ApiState where
  apiKey : String
deriving DecidableEq, Repr

/-- The slot's state before any setter call: the initializer `''`. -/
def initialApiState : ApiState :=
  ⟨""⟩

namespace SteamAPIController

/-- Mirrors `setApiKey(key) { apiKey = key }`: stores the argument verbatim,
performing no validation. -/
def setApiKey (key : String) (_st : ApiState) : ApiState :=
  ⟨key⟩

/-- Mirrors `enum CommunityVisibility` with its numeric values via
`CommunityVisibility.val`. -/
inductive CommunityVisibility where
  | VISIBLE
  | NOT_VISIBLE
deriving DecidableEq, Repr

/-- Numeric value of each `CommunityVisibility` enum member. -/
def CommunityVisibility.val : CommunityVisibility → Nat
  | .VISIBLE => 3
  | .NOT_VISIBLE => 1

/-- Mirrors `enum PersonaState` with its numeric values via
`PersonaState.val`. -/
inductive PersonaState where
  | OFFLINE
  | ONLINE
  | BUSY
  | AWAY
  | SNOOZE
  | LOOKING_TO_TRADE
  | LOOKING_TO_PLAY
deriving DecidableEq, Repr

/-- Numeric value of each `PersonaState` enum member. -/
def PersonaState.val : PersonaState → Nat
  | .OFFLINE => 0
  | .ONLINE => 1
  | .BUSY => 2
  | .AWAY => 3
  | .SNOOZE => 4
  | .LOOKING_TO_TRADE => 5
  | .LOOKING_TO_PLAY => 6

end SteamAPIController

/-- Mirrors `export type PlayerSummary`, the pass-through profile record. -/
structure PlayerSummary where
  steamid : String
  communityvisibilitystate : SteamAPIController.CommunityVisibility
  profilestate : Bool
  personaname : String
  lastlogoff : Nat
  commentpermission : Bool
  profileurl : String
  avatar : String
  avatarmedium : String
  avatarfull : String
  personastate : SteamAPIController.PersonaState
  realname : Option String
  primaryclanid : Option String
  timecreated : Option Nat
  loccountrycode : Option String
  locstatecode : Option String
  gameid : Option String
  gameserverip : Option String
  gameserversteamid : Option String
  gameextrainfo : Option String
deriving DecidableEq, Repr

/-- Mirrors `export type PlayerBans`, the pass-through ban record. -/
structure PlayerBans where
  SteamId : String
  CommunityBanned : Bool
  VACBanned : Bool
  NumberOfVACBans : Nat
  DaysSinceLastBan : Nat
  NumberOfGameBans : Nat
  EconomyBan : String
deriving DecidableEq, Repr

/-- Innermost payload of `type VanityURLResponse`. -/
structure VanityInner where
  success : Int
  steamid : Option String
  message : Option String
deriving DecidableEq, Repr

/-- The `data` wrapper of `type VanityURLResponse`. -/
structure VanityData where
  response : VanityInner
deriving DecidableEq, Repr

/-- Mirrors `type VanityURLResponse`. -/
structure VanityURLResponse where
  data : VanityData
deriving DecidableEq, Repr

/-- Innermost payload of `type PlayerSummaryResponse`. -/
structure SummaryInner where
  players : Option (List PlayerSummary)
deriving DecidableEq, Repr

/-- The `data` wrapper of `type PlayerSummaryResponse`. -/
structure SummaryData where
  response : SummaryInner
deriving DecidableEq, Repr

/-- Mirrors `type PlayerSummaryResponse`. -/
structure PlayerSummaryResponse where
  data : SummaryData
deriving DecidableEq, Repr

/-- Mirrors the inline response type of `GetPlayerBans`,
`{ players: PlayerBans[] }` (read directly off the awaited value, with no
`data` wrapper, exactly as the source does). -/
structure BansResponse where
  players : Option (List PlayerBans)
deriving DecidableEq, Repr

/-- Mirrors `type SteamIDResolvable = string | SteamID`. -/
inductive SteamIDResolvable where
  | sid (s : SteamID)
  | str (s : String)
deriving DecidableEq, Repr

/-- Boolean prefix test on character lists (our own, self-contained). -/
def isPrefixList : List Char → List Char → Bool
  | [], _ => true
  | _ :: _, [] => false
  | a :: as, b :: bs => a == b && isPrefixList as bs

/-- Does either literal alternative of a two-literal regex occur (as a
contiguous substring) anywhere in the list?  Mirrors JavaScript
`String.prototype.match` with a non-global two-alternative regex, whose
result is truthy exactly when some position matches. -/
def occursPat (p1 p2 : List Char) : List Char → Bool
  | [] => false
  | c :: rest => isPrefixList p1 (c :: rest) || isPrefixList p2 (c :: rest) || occursPat p1 p2 rest

/-- Remove the leftmost occurrence of a two-literal regex (first alternative
tried first at each position, mirroring the greedy `[s]{0,1}`; at any given
position at most one alternative can match, so the order is immaterial).
Mirrors `String.prototype.replace(regex, '')` with a non-global regex: only
the first match is removed, and a string with no match is returned
unchanged. -/
def removePat (p1 p2 : List Char) : List Char → List Char
  | [] => []
  | c :: rest =>
    if isPrefixList p1 (c :: rest) then (c :: rest).drop p1.length
    else if isPrefixList p2 (c :: rest) then (c :: rest).drop p2.length
    else c :: removePat p1 p2 rest

/-- Remove the first occurrence of one character, mirroring
`String.prototype.replace('/', '')` (a string pattern replaces only its
first occurrence). -/
def removeChar (t : Char) : List Char → List Char
  | [] => []
  | c :: rest => if c = t then rest else c :: removeChar t rest

/-- The `https` alternative of `profilesRegex`. -/
def proHttps : List Char :=
  "https://steamcommunity.com/profiles/".toList

/-- The `http` alternative of `profilesRegex`. -/
def proHttp : List Char :=
  "http://steamcommunity.com/profiles/".toList

/-- The `https` alternative of `customRegex`. -/
def cusHttps : List Char :=
  "https://steamcommunity.com/id/".toList

/-- The `http` alternative of `customRegex`. -/
def cusHttp : List Char :=
  "http://steamcommunity.com/id/".toList

/-- Tail of `proHttps` after its leading `'h'`. -/
def proHttpsTl : List Char :=
  "ttps://steamcommunity.com/profiles/".toList

/-- Tail of `proHttp` after its leading `'h'`. -/
def proHttpTl : List Char :=
  "ttp://steamcommunity.com/profiles/".toList

/-- Tail of `cusHttps` after its leading `'h'`. -/
def cusHttpsTl : List Char :=
  "ttps://steamcommunity.com/id/".toList

/-- Tail of `cusHttp` after its leading `'h'`. -/
def cusHttpTl : List Char :=
  "ttp://steamcommunity.com/id/".toList

namespace SteamAPIController

/-- Character-list core of `resolveURL`: if either regex matches anywhere,
remove the first `profilesRegex` match, then the first `customRegex` match,
then the first `'/'`; otherwise return the input unchanged. -/
def resolveURLList (l : List Char) : List Char :=
  if occursPat proHttps proHttp l || occursPat cusHttps cusHttp l then
    removeChar '/' (removePat cusHttps cusHttp (removePat proHttps proHttp l))
  else l

/-- Mirrors `resolveURL(url: string)`. -/
def resolveURL (url : String) : String :=
  String.mk (resolveURLList url.data)

/-- Mirrors `isValidSteamID`: try the constructor, swallow its throw. -/
def isValidSteamID (parse : Parse) (steamIDToCheck : String) : Bool :=
  (parse steamIDToCheck).isSome

/-- Mirrors `getSteamID`: normalize the URL, then strictly construct,
re-throwing the constructor's error. -/
def getSteamID (parse : Parse) (url : String) : Except ResolveError SteamID :=
  match parse (resolveURL url) with
  | some sid => .ok sid
  | none => .error .invalidFormat

/-- URL built by `resolveVanityUrl` from the key slot and the vanity name. -/
def vanityRequestURL (st : ApiState) (vanity : String) : String :=
  "http://api.steampowered.com/ISteamUser/ResolveVanityURL/v0001/?key=" ++ st.apiKey
    ++ "&vanityurl=" ++ vanity

/-- Mirrors `resolveVanityUrl` of the current module: one `axios.get`; on a
truthy response, return `new SteamID(steamid)` when the `steamid` field is
truthy (defined and nonempty), else throw `'Not a valid SteamID'`; on a
falsy response throw `'Could not reach the VanityURL API'`; a rejected
promise propagates.  The second component lists the URLs contacted. -/
def resolveVanityUrl (parse : Parse) (net : String → NetReply VanityURLResponse)
    (st : ApiState) (vanity : String) : Except ResolveError SteamID × List String :=
  let url := vanityRequestURL st vanity
  match net url with
  | .reject => (.error .network, [url])
  | .resolve none => (.error .couldNotReach, [url])
  | .resolve (some response) =>
    match response.data.response.steamid with
    | some s =>
      if s = "" then (.error .notValidSteamID, [url])
      else
        match parse s with
        | some sid => (.ok sid, [url])
        | none => (.error .invalidFormat, [url])
    | none => (.error .notValidSteamID, [url])

/-- Mirrors `getSteamIDAsync`: the guard `isValidSteamID(steamResolvable)`
followed by `new SteamID(steamResolvable)` is one deterministic
construction, so it is embedded as a single `match` on `parse`; on failure,
normalize, attempt the remote vanity lookup, map a successful lookup through
`getSteamID64`, catch any lookup failure by falling back to the normalized
string, and finally construct strictly (re-throwing the constructor's
error). -/
def getSteamIDAsync (parse : Parse) (net : String → NetReply VanityURLResponse)
    (st : ApiState) (steamResolvable : String) : Except ResolveError SteamID × List String :=
  match parse steamResolvable with
  | some sid => (.ok sid, [])
  | none =>
    let normalized := resolveURL steamResolvable
    let remote := resolveVanityUrl parse net st normalized
    let fallback : String :=
      match remote.1 with
      | .ok sid => sid.getSteamID64
      | .error _ => normalized
    match parse fallback with
    | some sid => (.ok sid, remote.2)
    | none => (.error .invalidFormat, remote.2)

/-- Mirrors the loop of `SteamIDResolvablesToSteamID64`: convert targets in
order, re-throwing the first constructor failure. -/
def SteamIDResolvablesToSteamID64 (parse : Parse) :
    List SteamIDResolvable → Except ResolveError (List String)
  | [] => .ok []
  | .sid s :: rest =>
    match SteamIDResolvablesToSteamID64 parse rest with
    | .ok ids => .ok (s.getSteamID64 :: ids)
    | .error e => .error e
  | .str s :: rest =>
    match parse s with
    | some sid =>
      match SteamIDResolvablesToSteamID64 parse rest with
      | .ok ids => .ok (sid.getSteamID64 :: ids)
      | .error e => .error e
    | none => .error .invalidFormat

/-- URL built by `GetPlayerSummaries` (comma-joined identifiers). -/
def summariesRequestURL (st : ApiState) (steamIDs : List String) : String :=
  "http://api.steampowered.com/ISteamUser/GetPlayerSummaries/v0002/?key=" ++ st.apiKey
    ++ "&steamids=" ++ String.intercalate "," steamIDs

/-- URL built by `GetPlayerBans` (comma-joined identifiers). -/
def bansRequestURL (st : ApiState) (steamIDs : List String) : String :=
  "http://api.steampowered.com/ISteamUser/GetPlayerBans/v1/?key=" ++ st.apiKey
    ++ "&steamids=" ++ String.intercalate "," steamIDs

/-- Mirrors `GetPlayerSummaries`: reject over-100 lists before anything
else; convert the targets; one `axios.get`; copy the `players` array into
the return array (the copying loop is skipped for an absent or empty array,
and reproduces the array element-by-element otherwise, so the result is the
array itself, `[]` when absent). -/
def GetPlayerSummaries (parse : Parse) (net : String → NetReply PlayerSummaryResponse)
    (st : ApiState) (targets : List SteamIDResolvable) :
    Except ResolveError (List PlayerSummary) × List String :=
  if targets.length > 100 then (.error .tooManyTargets, [])
  else
    match SteamIDResolvablesToSteamID64 parse targets with
    | .error e => (.error e, [])
    | .ok steamIDs =>
      let url := summariesRequestURL st steamIDs
      match net url with
      | .reject => (.error .network, [url])
      | .resolve none => (.ok [], [url])
      | .resolve (some response) =>
        match response.data.response.players with
        | some dataArray => (.ok dataArray, [url])
        | none => (.ok [], [url])

/-- Mirrors `GetPlayerBans` (same shape as `GetPlayerSummaries`, with the
`players` field read directly off the awaited value). -/
def GetPlayerBans (parse : Parse) (net : String → NetReply BansResponse)
    (st : ApiState) (targets : List SteamIDResolvable) :
    Except ResolveError (List PlayerBans) × List String :=
  if targets.length > 100 then (.error .tooManyTargets, [])
  else
    match SteamIDResolvablesToSteamID64 parse targets with
    | .error e => (.error e, [])
    | .ok steamIDs =>
      let url := bansRequestURL st steamIDs
      match net url with
      | .reject => (.error .network, [url])
      | .resolve none => (.ok [], [url])
      | .resolve (some response) =>
        match response.players with
        | some dataArray => (.ok dataArray, [url])
        | none => (.ok [], [url])

end SteamAPIController

namespace Legacy

/-- URL built by the legacy `getPlayerSummaries` (`src/index.ts`); the
template-string interpolation of an array joins it with commas. -/
def summariesRequestURL (st : ApiState) (targets : List String) : String :=
  "http://api.steampowered.com/ISteamUser/GetPlayerSummaries/v0002/?key=" ++ st.apiKey
    ++ "&steamids=" ++ String.intercalate "," targets

/-- Mirrors `getPlayerSummaries` of `src/index.ts`: plain string targets,
no conversion step, otherwise the same shape as the current module. -/
def getPlayerSummaries (net : String → NetReply PlayerSummaryResponse)
    (st : ApiState) (targets : List String) :
    Except ResolveError (List PlayerSummary) × List String :=
  if targets.length > 100 then (.error .tooManyTargets, [])
  else
    let url := summariesRequestURL st targets
    match net url with
    | .reject => (.error .network, [url])
    | .resolve none => (.ok [], [url])
    | .resolve (some response) =>
      match response.data.response.players with
      | some dataArray => (.ok dataArray, [url])
      | none => (.ok [], [url])

/-- Mirrors `resolveVanityUrl` of `src/index.ts`: identical to the current
module's version except that the raw `steamid` string is returned without
constructing a `SteamID`. -/
def resolveVanityUrl (net : String → NetReply VanityURLResponse)
    (st : ApiState) (vanity : String) : Except ResolveError String × List String :=
  let url := SteamAPIController.vanityRequestURL st vanity
  match net url with
  | .reject => (.error .network, [url])
  | .resolve none => (.error .couldNotReach, [url])
  | .resolve (some response) =>
    match response.data.response.steamid with
    | some s =>
      if s = "" then (.error .notValidSteamID, [url])
      else (.ok s, [url])
    | none => (.error .notValidSteamID, [url])

end Legacy


theorem isPrefixList_iff (p s : List Char) : isPrefixList p s = true ↔ ∃ t, s = p ++ t := by
  induction p generalizing s with
  | nil => simp [isPrefixList]
  | cons a as ih =>
    cases s with
    | nil => simp [isPrefixList]
    | cons b bs =>
      simp only [isPrefixList, Bool.and_eq_true, beq_iff_eq, ih, List.cons_append]
      constructor
      · rintro ⟨rfl, t, rfl⟩
        exact ⟨t, rfl⟩
      · rintro ⟨t, ht⟩
        simp only [List.cons.injEq] at ht
        obtain ⟨rfl, rfl⟩ := ht
        exact ⟨rfl, t, rfl⟩

theorem isPrefixList_self_append (p t : List Char) : isPrefixList p (p ++ t) = true :=
  (isPrefixList_iff p (p ++ t)).mpr ⟨t, rfl⟩

theorem isPrefixList_eq_false_of_ne (q p b : List Char) (i : Nat)
    (hip : i < p.length) (hiq : i < q.length) (hne : p[i]? ≠ q[i]?) :
    isPrefixList q (p ++ b) = false := by
  by_contra h
  rw [Bool.not_eq_false, isPrefixList_iff] at h
  obtain ⟨t, ht⟩ := h
  have h1 : (p ++ b)[i]? = p[i]? := List.getElem?_append_left hip
  have h2 : (q ++ t)[i]? = q[i]? := List.getElem?_append_left hiq
  rw [ht] at h1
  exact hne (h1.symm.trans h2)

theorem removePat_append (x : Char) (p1 p2 a s : List Char) (ha : ∀ c ∈ a, c ≠ x) :
    removePat (x :: p1) (x :: p2) (a ++ s) = a ++ removePat (x :: p1) (x :: p2) s := by
  induction a with
  | nil => simp
  | cons c a' ih =>
    have hc : (x == c) = false := by
      rw [beq_eq_false_iff_ne]
      exact fun h => ha c (List.mem_cons_self c a') h.symm
    simp only [List.cons_append, removePat, isPrefixList, hc, Bool.false_and, Bool.false_eq_true,
      if_false]
    exact congrArg (List.cons c) (ih (fun d hd => ha d (List.mem_cons_of_mem c hd)))

theorem occursPat_append (x : Char) (p1 p2 a s : List Char) (ha : ∀ c ∈ a, c ≠ x) :
    occursPat (x :: p1) (x :: p2) (a ++ s) = occursPat (x :: p1) (x :: p2) s := by
  induction a with
  | nil => simp
  | cons c a' ih =>
    have hc : (x == c) = false := by
      rw [beq_eq_false_iff_ne]
      exact fun h => ha c (List.mem_cons_self c a') h.symm
    simp only [List.cons_append, occursPat, isPrefixList, hc, Bool.false_and, Bool.false_or]
    exact ih (fun d hd => ha d (List.mem_cons_of_mem c hd))

theorem removePat_eq_self (x : Char) (p1 p2 s : List Char) (hs : ∀ c ∈ s, c ≠ x) :
    removePat (x :: p1) (x :: p2) s = s := by
  have h := removePat_append x p1 p2 s [] hs
  simpa [removePat] using h

theorem occursPat_eq_false (x : Char) (p1 p2 s : List Char) (hs : ∀ c ∈ s, c ≠ x) :
    occursPat (x :: p1) (x :: p2) s = false := by
  have h := occursPat_append x p1 p2 s [] hs
  simpa [occursPat] using h

theorem isPrefixList_eq_false_of_count (t : Char) (p s : List Char)
    (h : s.count t < p.count t) : isPrefixList p s = false := by
  by_contra hcon
  rw [Bool.not_eq_false, isPrefixList_iff] at hcon
  obtain ⟨r, rfl⟩ := hcon
  rw [List.count_append] at h
  omega

theorem removePat_eq_self_of_count (t : Char) (p1 p2 s : List Char)
    (h1 : s.count t < p1.count t) (h2 : s.count t < p2.count t) :
    removePat p1 p2 s = s := by
  induction s with
  | nil => simp [removePat]
  | cons c rest ih =>
    have hc1 : isPrefixList p1 (c :: rest) = false := isPrefixList_eq_false_of_count t p1 _ h1
    have hc2 : isPrefixList p2 (c :: rest) = false := isPrefixList_eq_false_of_count t p2 _ h2
    have hr1 : List.count t rest < List.count t p1 := by
      rw [List.count_cons] at h1
      omega
    have hr2 : List.count t rest < List.count t p2 := by
      rw [List.count_cons] at h2
      omega
    simp [removePat, hc1, hc2, ih hr1 hr2]

theorem occursPat_eq_false_of_count (t : Char) (p1 p2 s : List Char)
    (h1 : s.count t < p1.count t) (h2 : s.count t < p2.count t) :
    occursPat p1 p2 s = false := by
  induction s with
  | nil => simp [occursPat]
  | cons c rest ih =>
    have hc1 : isPrefixList p1 (c :: rest) = false := isPrefixList_eq_false_of_count t p1 _ h1
    have hc2 : isPrefixList p2 (c :: rest) = false := isPrefixList_eq_false_of_count t p2 _ h2
    have hr1 : List.count t rest < List.count t p1 := by
      rw [List.count_cons] at h1
      omega
    have hr2 : List.count t rest < List.count t p2 := by
      rw [List.count_cons] at h2
      omega
    simp [occursPat, hc1, hc2, ih hr1 hr2]

theorem removeChar_eq_self (t : Char) (s : List Char) (h : ∀ c ∈ s, c ≠ t) :
    removeChar t s = s := by
  induction s with
  | nil => rfl
  | cons c rest ih =>
    have hc : ¬ c = t := h c (List.mem_cons_self c rest)
    simp [removeChar, hc, ih (fun d hd => h d (List.mem_cons_of_mem c hd))]

theorem removeChar_append (t : Char) (a b : List Char) (h : ∀ c ∈ a, c ≠ t) :
    removeChar t (a ++ t :: b) = a ++ b := by
  induction a with
  | nil => simp [removeChar]
  | cons c a' ih =>
    have hc : ¬ c = t := h c (List.mem_cons_self c a')
    simp [removeChar, hc, ih (fun d hd => h d (List.mem_cons_of_mem c hd))]

theorem removePat_left (x : Char) (p1' p2 rest : List Char) :
    removePat (x :: p1') p2 ((x :: p1') ++ rest) = rest := by
  have h := isPrefixList_self_append (x :: p1') rest
  simp only [List.cons_append] at h ⊢
  rw [removePat, if_pos h]
  exact List.drop_left (x :: p1') rest

theorem removePat_right (p1 : List Char) (x : Char) (p2' rest : List Char)
    (h : isPrefixList p1 ((x :: p2') ++ rest) = false) :
    removePat p1 (x :: p2') ((x :: p2') ++ rest) = rest := by
  have h2 := isPrefixList_self_append (x :: p2') rest
  simp only [List.cons_append] at h h2 ⊢
  rw [removePat, if_neg (by simp [h]), if_pos h2]
  exact List.drop_left (x :: p2') rest

theorem occursPat_of_first (p1 p2 s : List Char) (hp : p1 ≠ [])
    (h : isPrefixList p1 s = true) : occursPat p1 p2 s = true := by
  cases s with
  | nil =>
    cases p1 with
    | nil => exact absurd rfl hp
    | cons a b => simp [isPrefixList] at h
  | cons c rest => simp [occursPat, h]

theorem occursPat_of_second (p1 p2 s : List Char) (hp : p2 ≠ [])
    (h : isPrefixList p2 s = true) : occursPat p1 p2 s = true := by
  cases s with
  | nil =>
    cases p2 with
    | nil => exact absurd rfl hp
    | cons a b => simp [isPrefixList] at h
  | cons c rest => simp [occursPat, h]

theorem proHttps_eq : proHttps = 'h' :: proHttpsTl := by decide

theorem proHttp_eq : proHttp = 'h' :: proHttpTl := by decide

theorem cusHttps_eq : cusHttps = 'h' :: cusHttpsTl := by decide

theorem cusHttp_eq : cusHttp = 'h' :: cusHttpTl := by decide

theorem proHttpsTl_hfree : ∀ c ∈ proHttpsTl, c ≠ 'h' := by decide

theorem proHttpTl_hfree : ∀ c ∈ proHttpTl, c ≠ 'h' := by decide

theorem cusHttpsTl_hfree : ∀ c ∈ cusHttpsTl, c ≠ 'h' := by decide

theorem cusHttpTl_hfree : ∀ c ∈ cusHttpTl, c ≠ 'h' := by decide

theorem not_proHttps_on_proHttp (b : List Char) : isPrefixList proHttps (proHttp ++ b) = false :=
  isPrefixList_eq_false_of_ne proHttps proHttp b 4 (by decide) (by decide) (by decide)

theorem not_proHttps_on_cusHttps (b : List Char) : isPrefixList proHttps (cusHttps ++ b) = false :=
  isPrefixList_eq_false_of_ne proHttps cusHttps b 27 (by decide) (by decide) (by decide)

theorem not_proHttp_on_cusHttps (b : List Char) : isPrefixList proHttp (cusHttps ++ b) = false :=
  isPrefixList_eq_false_of_ne proHttp cusHttps b 4 (by decide) (by decide) (by decide)

theorem not_proHttps_on_cusHttp (b : List Char) : isPrefixList proHttps (cusHttp ++ b) = false :=
  isPrefixList_eq_false_of_ne proHttps cusHttp b 4 (by decide) (by decide) (by decide)

theorem not_proHttp_on_cusHttp (b : List Char) : isPrefixList proHttp (cusHttp ++ b) = false :=
  isPrefixList_eq_false_of_ne proHttp cusHttp b 26 (by decide) (by decide) (by decide)

theorem not_cusHttps_on_cusHttp (b : List Char) : isPrefixList cusHttps (cusHttp ++ b) = false :=
  isPrefixList_eq_false_of_ne cusHttps cusHttp b 4 (by decide) (by decide) (by decide)

theorem removePro_proHttps (rest : List Char) :
    removePat proHttps proHttp (proHttps ++ rest) = rest := by
  rw [proHttps_eq]
  exact removePat_left 'h' proHttpsTl proHttp rest

theorem removePro_proHttp (rest : List Char) :
    removePat proHttps proHttp (proHttp ++ rest) = rest := by
  have h := not_proHttps_on_proHttp rest
  rw [proHttp_eq] at h ⊢
  exact removePat_right proHttps 'h' proHttpTl rest h

theorem removeCus_cusHttps (rest : List Char) :
    removePat cusHttps cusHttp (cusHttps ++ rest) = rest := by
  rw [cusHttps_eq]
  exact removePat_left 'h' cusHttpsTl cusHttp rest

theorem removeCus_cusHttp (rest : List Char) :
    removePat cusHttps cusHttp (cusHttp ++ rest) = rest := by
  have h := not_cusHttps_on_cusHttp rest
  rw [cusHttp_eq] at h ⊢
  exact removePat_right cusHttps 'h' cusHttpTl rest h

theorem removePro_cusHttps_inert (rest : List Char)
    (h : removePat proHttps proHttp rest = rest) :
    removePat proHttps proHttp (cusHttps ++ rest) = cusHttps ++ rest := by
  have h1 := not_proHttps_on_cusHttps rest
  have h2 := not_proHttp_on_cusHttps rest
  rw [cusHttps_eq] at h1 h2 ⊢
  simp only [List.cons_append] at h1 h2 ⊢
  rw [removePat, if_neg (by simp [h1]), if_neg (by simp [h2])]
  congr 1
  rw [proHttps_eq, proHttp_eq,
    removePat_append 'h' proHttpsTl proHttpTl cusHttpsTl rest cusHttpsTl_hfree,
    ← proHttps_eq, ← proHttp_eq, h]

theorem removePro_cusHttp_inert (rest : List Char)
    (h : removePat proHttps proHttp rest = rest) :
    removePat proHttps proHttp (cusHttp ++ rest) = cusHttp ++ rest := by
  have h1 := not_proHttps_on_cusHttp rest
  have h2 := not_proHttp_on_cusHttp rest
  rw [cusHttp_eq] at h1 h2 ⊢
  simp only [List.cons_append] at h1 h2 ⊢
  rw [removePat, if_neg (by simp [h1]), if_neg (by simp [h2])]
  congr 1
  rw [proHttps_eq, proHttp_eq,
    removePat_append 'h' proHttpsTl proHttpTl cusHttpTl rest cusHttpTl_hfree,
    ← proHttps_eq, ← proHttp_eq, h]

theorem occursPro_proHttps (rest : List Char) :
    occursPat proHttps proHttp (proHttps ++ rest) = true :=
  occursPat_of_first proHttps proHttp _ (by decide) (isPrefixList_self_append proHttps rest)

theorem occursPro_proHttp (rest : List Char) :
    occursPat proHttps proHttp (proHttp ++ rest) = true :=
  occursPat_of_second proHttps proHttp _ (by decide) (isPrefixList_self_append proHttp rest)

theorem occursCus_cusHttps (rest : List Char) :
    occursPat cusHttps cusHttp (cusHttps ++ rest) = true :=
  occursPat_of_first cusHttps cusHttp _ (by decide) (isPrefixList_self_append cusHttps rest)

theorem occursCus_cusHttp (rest : List Char) :
    occursPat cusHttps cusHttp (cusHttp ++ rest) = true :=
  occursPat_of_second cusHttps cusHttp _ (by decide) (isPrefixList_self_append cusHttp rest)

theorem count_slash_le_one_removePro (l : List Char) (h : List.count '/' l ≤ 1) :
    removePat proHttps proHttp l = l :=
  removePat_eq_self_of_count '/' proHttps proHttp l
    (by have : List.count '/' proHttps = 4 := by decide
        omega)
    (by have : List.count '/' proHttp = 4 := by decide
        omega)

theorem count_slash_le_one_removeCus (l : List Char) (h : List.count '/' l ≤ 1) :
    removePat cusHttps cusHttp l = l :=
  removePat_eq_self_of_count '/' cusHttps cusHttp l
    (by have : List.count '/' cusHttps = 4 := by decide
        omega)
    (by have : List.count '/' cusHttp = 4 := by decide
        omega)

theorem count_slash_zero_occurs_false (l : List Char) (h : List.count '/' l = 0) :
    occursPat proHttps proHttp l = false ∧ occursPat cusHttps cusHttp l = false :=
  ⟨occursPat_eq_false_of_count '/' proHttps proHttp l
      (by have : List.count '/' proHttps = 4 := by decide
          omega)
      (by have : List.count '/' proHttp = 4 := by decide
          omega),
    occursPat_eq_false_of_count '/' cusHttps cusHttp l
      (by have : List.count '/' cusHttps = 4 := by decide
          omega)
      (by have : List.count '/' cusHttp = 4 := by decide
          omega)⟩

theorem hfree_append {a b : List Char} (ha : ∀ c ∈ a, c ≠ 'h') (hb : ∀ c ∈ b, c ≠ 'h') :
    ∀ c ∈ a ++ b, c ≠ 'h' :=
  fun c hc => (List.mem_append.mp hc).elim (ha c) (hb c)

theorem removePro_hfree (l : List Char) (h : ∀ c ∈ l, c ≠ 'h') :
    removePat proHttps proHttp l = l := by
  rw [proHttps_eq, proHttp_eq]
  exact removePat_eq_self 'h' _ _ l h

theorem removeCus_hfree (l : List Char) (h : ∀ c ∈ l, c ≠ 'h') :
    removePat cusHttps cusHttp l = l := by
  rw [cusHttps_eq, cusHttp_eq]
  exact removePat_eq_self 'h' _ _ l h

theorem removePro_append_hfree (a s : List Char) (ha : ∀ c ∈ a, c ≠ 'h') :
    removePat proHttps proHttp (a ++ s) = a ++ removePat proHttps proHttp s := by
  rw [proHttps_eq, proHttp_eq]
  exact removePat_append 'h' _ _ a s ha

theorem removeCus_append_hfree (a s : List Char) (ha : ∀ c ∈ a, c ≠ 'h') :
    removePat cusHttps cusHttp (a ++ s) = a ++ removePat cusHttps cusHttp s := by
  rw [cusHttps_eq, cusHttp_eq]
  exact removePat_append 'h' _ _ a s ha

theorem occursPro_append_hfree (a s : List Char) (ha : ∀ c ∈ a, c ≠ 'h') :
    occursPat proHttps proHttp (a ++ s) = occursPat proHttps proHttp s := by
  rw [proHttps_eq, proHttp_eq]
  exact occursPat_append 'h' _ _ a s ha

theorem occursCus_append_hfree (a s : List Char) (ha : ∀ c ∈ a, c ≠ 'h') :
    occursPat cusHttps cusHttp (a ++ s) = occursPat cusHttps cusHttp s := by
  rw [cusHttps_eq, cusHttp_eq]
  exact occursPat_append 'h' _ _ a s ha

theorem resolveURLList_inert_of_count (l : List Char) (h : List.count '/' l = 0) :
    SteamAPIController.resolveURLList l = l := by
  obtain ⟨h1, h2⟩ := count_slash_zero_occurs_false l h
  simp [SteamAPIController.resolveURLList, h1, h2]

theorem resolveURLList_shaped (pre token sl : List Char)
    (hpre : pre = proHttps ∨ pre = proHttp ∨ pre = cusHttps ∨ pre = cusHttp)
    (htok : ∀ c ∈ token, c ≠ '/')
    (hsl : sl = [] ∨ sl = ['/']) :
    SteamAPIController.resolveURLList (pre ++ (token ++ sl)) = token := by
  have htokc : List.count '/' token = 0 :=
    List.count_eq_zero.mpr (fun hmem => htok '/' hmem rfl)
  have hslc : List.count '/' (token ++ sl) ≤ 1 := by
    rcases hsl with rfl | rfl <;> simp [List.count_append, htokc]
  have hfin : removeChar '/' (token ++ sl) = token := by
    rcases hsl with rfl | rfl
    · simpa using removeChar_eq_self '/' token htok
    · rw [show token ++ ['/'] = token ++ '/' :: ([] : List Char) from rfl,
        removeChar_append '/' token [] htok]
      simp
  rcases hpre with rfl | rfl | rfl | rfl
  · have hocc := occursPro_proHttps (token ++ sl)
    simp only [SteamAPIController.resolveURLList, hocc, Bool.true_or, if_true]
    rw [removePro_proHttps, count_slash_le_one_removeCus _ hslc, hfin]
  · have hocc := occursPro_proHttp (token ++ sl)
    simp only [SteamAPIController.resolveURLList, hocc, Bool.true_or, if_true]
    rw [removePro_proHttp, count_slash_le_one_removeCus _ hslc, hfin]
  · have hocc := occursCus_cusHttps (token ++ sl)
    simp only [SteamAPIController.resolveURLList, hocc, Bool.or_true, if_true]
    rw [removePro_cusHttps_inert _ (count_slash_le_one_removePro _ hslc),
      removeCus_cusHttps, hfin]
  · have hocc := occursCus_cusHttp (token ++ sl)
    simp only [SteamAPIController.resolveURLList, hocc, Bool.or_true, if_true]
    rw [removePro_cusHttp_inert _ (count_slash_le_one_removePro _ hslc),
      removeCus_cusHttp, hfin]

theorem resolveURLList_eq_self_of_digits (l : List Char) (h : l.all Char.isDigit = true) :
    SteamAPIController.resolveURLList l = l := by
  have hh : ∀ c ∈ l, c ≠ 'h' := fun c hc he => by
    subst he
    exact absurd (List.all_eq_true.mp h _ hc) (by decide)
  have h1 : occursPat proHttps proHttp l = false := by
    rw [proHttps_eq, proHttp_eq]
    exact occursPat_eq_false 'h' _ _ l hh
  have h2 : occursPat cusHttps cusHttp l = false := by
    rw [cusHttps_eq, cusHttp_eq]
    exact occursPat_eq_false 'h' _ _ l hh
  simp [SteamAPIController.resolveURLList, h1, h2]

/-- Claim C1: for every input string on which `isValidSteamID` returns true,
`getSteamIDAsync` constructs and returns the identifier from that string
immediately, contacting no URL (the remote vanity lookup is never
invoked). -/
theorem C1_valid_input_no_network (parse : Parse) (net : String → NetReply VanityURLResponse)
    (st : ApiState) (s : String)
    (h : SteamAPIController.isValidSteamID parse s = true) :
    ∃ sid, parse s = some sid ∧
      SteamAPIController.getSteamIDAsync parse net st s = (Except.ok sid, []) := by
  rw [SteamAPIController.isValidSteamID, Option.isSome_iff_exists] at h
  obtain ⟨sid, hsid⟩ := h
  refine ⟨sid, hsid, ?_⟩
  simp [SteamAPIController.getSteamIDAsync, hsid]

/-- Witness for C1 at the concrete valid identifier string of Scenario A. -/
theorem C1_valid_input_no_network_witness :
    SteamAPIController.isValidSteamID parseSteamID "76561197960287930" = true ∧
      ∃ sid, parseSteamID "76561197960287930" = some sid ∧
        SteamAPIController.getSteamIDAsync parseSteamID (fun _ => NetReply.reject)
          initialApiState "76561197960287930" = (Except.ok sid, []) :=
  ⟨by decide,
    C1_valid_input_no_network parseSteamID (fun _ => NetReply.reject) initialApiState
      "76561197960287930" (by decide)⟩

/-- Claim C2: `getSteamIDAsync` never propagates a failure of the remote
vanity lookup: when the input is not locally valid and the remote call
throws (for any reason), the result is exactly that of strict local
construction of the normalized string, and in all cases the only error
`getSteamIDAsync` can end in is the local parse error. -/
theorem C2_remote_failure_not_propagated (parse : Parse)
    (net : String → NetReply VanityURLResponse) (st : ApiState) (s : String) :
    ((SteamAPIController.isValidSteamID parse s = false) →
      (∃ e, (SteamAPIController.resolveVanityUrl parse net st
          (SteamAPIController.resolveURL s)).1 = Except.error e) →
      SteamAPIController.getSteamIDAsync parse net st s =
        ((match parse (SteamAPIController.resolveURL s) with
          | some sid => Except.ok sid
          | none => Except.error ResolveError.invalidFormat),
          (SteamAPIController.resolveVanityUrl parse net st
            (SteamAPIController.resolveURL s)).2)) ∧
    (∀ e, (SteamAPIController.getSteamIDAsync parse net st s).1 = Except.error e →
      e = ResolveError.invalidFormat) := by
  constructor
  · rintro hv ⟨e, he⟩
    have hps : parse s = none := by
      rw [SteamAPIController.isValidSteamID] at hv
      cases hp : parse s with
      | none => rfl
      | some sid => rw [hp] at hv; simp at hv
    simp only [SteamAPIController.getSteamIDAsync, hps, he]
    cases hp2 : parse (SteamAPIController.resolveURL s) <;> simp [hp2]
  · intro e he
    cases hp : parse s with
    | some sid => simp only [SteamAPIController.getSteamIDAsync, hp] at he; simp at he
    | none =>
      simp only [SteamAPIController.getSteamIDAsync, hp] at he
      cases hfb : parse (match (SteamAPIController.resolveVanityUrl parse net st
          (SteamAPIController.resolveURL s)).1 with
        | .ok sid => sid.getSteamID64
        | .error _ => SteamAPIController.resolveURL s) with
      | some sid => rw [hfb] at he; simp at he
      | none => rw [hfb] at he; simp at he; exact he.symm

/-- Witness for C2 at a concrete vanity-shaped input with a rejecting
network. -/
theorem C2_remote_failure_not_propagated_witness :
    SteamAPIController.isValidSteamID parseSteamID "coolname" = false ∧
      (∃ e, (SteamAPIController.resolveVanityUrl parseSteamID (fun _ => NetReply.reject)
          initialApiState (SteamAPIController.resolveURL "coolname")).1 = Except.error e) ∧
      SteamAPIController.getSteamIDAsync parseSteamID (fun _ => NetReply.reject)
          initialApiState "coolname" =
        ((match parseSteamID (SteamAPIController.resolveURL "coolname") with
          | some sid => Except.ok sid
          | none => Except.error ResolveError.invalidFormat),
          (SteamAPIController.resolveVanityUrl parseSteamID (fun _ => NetReply.reject)
            initialApiState (SteamAPIController.resolveURL "coolname")).2) :=
  ⟨by decide, ⟨ResolveError.network, by decide⟩,
    (C2_remote_failure_not_propagated parseSteamID (fun _ => NetReply.reject)
      initialApiState "coolname").1 (by decide) ⟨ResolveError.network, by decide⟩⟩

/-- Claim C4: when the input is not a valid identifier, the remote lookup on
the normalized string fails (in any way), and strict local construction of
the normalized string also fails, `getSteamIDAsync` ends in the local parse
error. -/
theorem C4_final_error_is_parse_error (parse : Parse)
    (net : String → NetReply VanityURLResponse) (st : ApiState) (s : String)
    (e : ResolveError)
    (h1 : SteamAPIController.isValidSteamID parse s = false)
    (h2 : (SteamAPIController.resolveVanityUrl parse net st
        (SteamAPIController.resolveURL s)).1 = Except.error e)
    (h3 : parse (SteamAPIController.resolveURL s) = none) :
    (SteamAPIController.getSteamIDAsync parse net st s).1 =
      Except.error ResolveError.invalidFormat := by
  have hps : parse s = none := by
    rw [SteamAPIController.isValidSteamID] at h1
    cases hp : parse s with
    | none => rfl
    | some sid => rw [hp] at h1; simp at h1
  simp only [SteamAPIController.getSteamIDAsync, hps, h2, h3]

/-- Witness for C4: Scenario D, input `"coolname"` with a remote response
`{success: 42, message: "No match"}` carrying no `steamid`. -/
theorem C4_final_error_is_parse_error_witness :
    SteamAPIController.isValidSteamID parseSteamID "coolname" = false ∧
      (SteamAPIController.resolveVanityUrl parseSteamID
        (fun _ => NetReply.resolve (some ⟨⟨⟨42, none, some "No match"⟩⟩⟩))
        initialApiState (SteamAPIController.resolveURL "coolname")).1 =
        Except.error ResolveError.notValidSteamID ∧
      parseSteamID (SteamAPIController.resolveURL "coolname") = none ∧
      (SteamAPIController.getSteamIDAsync parseSteamID
        (fun _ => NetReply.resolve (some ⟨⟨⟨42, none, some "No match"⟩⟩⟩))
        initialApiState "coolname").1 = Except.error ResolveError.invalidFormat :=
  ⟨by decide, by decide, by decide,
    C4_final_error_is_parse_error parseSteamID
      (fun _ => NetReply.resolve (some ⟨⟨⟨42, none, some "No match"⟩⟩⟩))
      initialApiState "coolname" ResolveError.notValidSteamID
      (by decide) (by decide) (by decide)⟩

/-- Claim C5: with more than 100 targets, both bulk operations throw
`tooManyTargets` with no URL contacted, for every parse function and every
target list (in particular before any target conversion could fail). -/
theorem C5_too_many_targets (parse : Parse) (netS : String → NetReply PlayerSummaryResponse)
    (netB : String → NetReply BansResponse) (st : ApiState)
    (targets : List SteamIDResolvable) (h : targets.length > 100) :
    SteamAPIController.GetPlayerSummaries parse netS st targets =
        (Except.error ResolveError.tooManyTargets, []) ∧
      SteamAPIController.GetPlayerBans parse netB st targets =
        (Except.error ResolveError.tooManyTargets, []) := by
  constructor
  · simp [SteamAPIController.GetPlayerSummaries, h]
  · simp [SteamAPIController.GetPlayerBans, h]

/-- Witness for C5 at a concrete list of 101 targets. -/
theorem C5_too_many_targets_witness :
    (List.replicate 101 (SteamIDResolvable.str "x")).length > 100 ∧
      SteamAPIController.GetPlayerSummaries parseSteamID (fun _ => NetReply.reject)
          initialApiState (List.replicate 101 (SteamIDResolvable.str "x")) =
        (Except.error ResolveError.tooManyTargets, []) ∧
      SteamAPIController.GetPlayerBans parseSteamID (fun _ => NetReply.reject)
          initialApiState (List.replicate 101 (SteamIDResolvable.str "x")) =
        (Except.error ResolveError.tooManyTargets, []) := by
  refine ⟨by decide, ?_⟩
  exact C5_too_many_targets parseSteamID (fun _ => NetReply.reject) (fun _ => NetReply.reject)
    initialApiState (List.replicate 101 (SteamIDResolvable.str "x")) (by decide)

/-- Claim C6: whenever `isValidSteamID` accepts a string, the synchronous
`getSteamID` succeeds on it (identifier strings are all-digit, hence
untouched by `resolveURL`, and the second construction repeats the
first). -/
theorem C6_valid_implies_sync_ok (x : String)
    (h : SteamAPIController.isValidSteamID parseSteamID x = true) :
    ∃ sid, SteamAPIController.getSteamID parseSteamID x = Except.ok sid := by
  rw [SteamAPIController.isValidSteamID, Option.isSome_iff_exists] at h
  obtain ⟨sid, hsid⟩ := h
  have hsid' := hsid
  have hd : x.data.all Char.isDigit = true := by
    simp only [parseSteamID] at hsid
    split at hsid
    · next hcond =>
      simp only [Bool.and_eq_true] at hcond
      exact hcond.1.2
    · exact Option.noConfusion hsid
  have hres : SteamAPIController.resolveURL x = x := by
    rw [SteamAPIController.resolveURL, resolveURLList_eq_self_of_digits x.data hd]
  refine ⟨sid, ?_⟩
  simp only [SteamAPIController.getSteamID, hres, hsid']

/-- Witness for C6 at the concrete valid identifier string. -/
theorem C6_valid_implies_sync_ok_witness :
    SteamAPIController.isValidSteamID parseSteamID "76561197960287930" = true ∧
      ∃ sid, SteamAPIController.getSteamID parseSteamID "76561197960287930" = Except.ok sid :=
  ⟨by decide, C6_valid_implies_sync_ok "76561197960287930" (by decide)⟩

theorem resolveURL_mk (l : List Char) :
    SteamAPIController.resolveURL (String.mk l) =
      String.mk (SteamAPIController.resolveURLList l) := rfl

/-- Counterexample to claim C3: `resolveURL` is not idempotent on every
input string.  On this input the first `profiles` prefix is removed and the
first slash of the remainder (the stray leading one) is consumed, leaving a
second, fully intact profile URL that a second application strips again. -/
theorem C3_idempotence_counterexample :
    SteamAPIController.resolveURL
        "http://steamcommunity.com/profiles//http://steamcommunity.com/profiles/C" =
        "http://steamcommunity.com/profiles/C" ∧
      SteamAPIController.resolveURL "http://steamcommunity.com/profiles/C" = "C" ∧
      SteamAPIController.resolveURL (SteamAPIController.resolveURL
        "http://steamcommunity.com/profiles//http://steamcommunity.com/profiles/C") ≠
        SteamAPIController.resolveURL
          "http://steamcommunity.com/profiles//http://steamcommunity.com/profiles/C" := by
  refine ⟨by decide, by decide, ?_⟩
  decide

/-- Claim C3 (amended): on every input shaped as a profile URL — a
recognized prefix, a slash-free token, and an optional trailing slash —
`resolveURL` strips exactly the one prefix and the trailing slash, leaving
the bare token, and is idempotent on all such inputs; idempotence on
arbitrary strings fails (see the counterexample). -/
theorem C3_shaped_strip_and_idempotent (pre token sl : List Char)
    (hpre : pre = proHttps ∨ pre = proHttp ∨ pre = cusHttps ∨ pre = cusHttp)
    (htok : ∀ c ∈ token, c ≠ '/')
    (hsl : sl = [] ∨ sl = ['/']) :
    SteamAPIController.resolveURL (String.mk (pre ++ (token ++ sl))) = String.mk token ∧
      SteamAPIController.resolveURL (SteamAPIController.resolveURL
          (String.mk (pre ++ (token ++ sl)))) =
        SteamAPIController.resolveURL (String.mk (pre ++ (token ++ sl))) := by
  have h1 : SteamAPIController.resolveURLList (pre ++ (token ++ sl)) = token :=
    resolveURLList_shaped pre token sl hpre htok hsl
  have htokc : List.count '/' token = 0 :=
    List.count_eq_zero.mpr (fun hmem => htok '/' hmem rfl)
  have h2 : SteamAPIController.resolveURLList token = token :=
    resolveURLList_inert_of_count token htokc
  have e1 : SteamAPIController.resolveURL (String.mk (pre ++ (token ++ sl))) =
      String.mk token := by
    rw [resolveURL_mk, h1]
  refine ⟨e1, ?_⟩
  rw [e1, resolveURL_mk, h2]

/-- Witness for C3's amended theorem at a concrete vanity-profile URL with
a trailing slash. -/
theorem C3_shaped_strip_and_idempotent_witness :
    (cusHttp = proHttps ∨ cusHttp = proHttp ∨ cusHttp = cusHttps ∨ cusHttp = cusHttp) ∧
      (∀ c ∈ "coolname".toList, c ≠ '/') ∧
      (['/'] = ([] : List Char) ∨ ['/'] = ['/']) ∧
      (SteamAPIController.resolveURL (String.mk (cusHttp ++ ("coolname".toList ++ ['/']))) =
          String.mk "coolname".toList ∧
        SteamAPIController.resolveURL (SteamAPIController.resolveURL
            (String.mk (cusHttp ++ ("coolname".toList ++ ['/'])))) =
          SteamAPIController.resolveURL (String.mk (cusHttp ++ ("coolname".toList ++ ['/'])))) :=
  ⟨by decide, by decide, by decide,
    C3_shaped_strip_and_idempotent cusHttp "coolname".toList ['/']
      (by decide) (by decide) (by decide)⟩

/-- Claim C10: the prefix match of `resolveURL` is not anchored at the start
of the input.  Whenever either regex matches anywhere, the result is
literally "remove the first `profiles` match, then the first `id` match,
then the first `'/'` of the remainder" (first conjunct); over any context
free of the letter h, an interior occurrence of a prefix is removed and
only the first slash of what remains — wherever it sits — is dropped
(middle conjuncts); concretely, a remainder with several slashes keeps all
but its first, including any trailing one (last conjunct). -/
theorem C10_unanchored_first_slash_only (a b c : List Char)
    (ha : ∀ ch ∈ a, ch ≠ 'h') (hb : ∀ ch ∈ b, ch ≠ 'h') (_hc : ∀ ch ∈ c, ch ≠ 'h') :
    (∀ l, (occursPat proHttps proHttp l || occursPat cusHttps cusHttp l) = true →
        SteamAPIController.resolveURLList l =
          removeChar '/' (removePat cusHttps cusHttp (removePat proHttps proHttp l))) ∧
      SteamAPIController.resolveURL (String.mk (a ++ (proHttp ++ b))) =
        String.mk (removeChar '/' (a ++ b)) ∧
      SteamAPIController.resolveURL (String.mk (a ++ (cusHttp ++ b))) =
        String.mk (removeChar '/' (a ++ b)) ∧
      SteamAPIController.resolveURL (String.mk (a ++ (proHttp ++ (b ++ (cusHttp ++ c))))) =
        String.mk (removeChar '/' (a ++ (b ++ c))) ∧
      SteamAPIController.resolveURL "http://steamcommunity.com/profiles/c/d/e/" = "cd/e/" := by
  refine ⟨?_, ?_, ?_, ?_, by decide⟩
  · intro l hl
    simp [SteamAPIController.resolveURLList, hl]
  · have hg : occursPat proHttps proHttp (a ++ (proHttp ++ b)) = true := by
      rw [occursPro_append_hfree a _ ha, occursPro_proHttp]
    have hr : removePat proHttps proHttp (a ++ (proHttp ++ b)) = a ++ b := by
      rw [removePro_append_hfree a _ ha, removePro_proHttp]
    have hcu : removePat cusHttps cusHttp (a ++ b) = a ++ b :=
      removeCus_hfree _ (hfree_append ha hb)
    rw [resolveURL_mk]
    simp only [SteamAPIController.resolveURLList, hg, Bool.true_or, if_true, hr, hcu]
  · have hg : occursPat cusHttps cusHttp (a ++ (cusHttp ++ b)) = true := by
      rw [occursCus_append_hfree a _ ha, occursCus_cusHttp]
    have hpro : removePat proHttps proHttp (a ++ (cusHttp ++ b)) = a ++ (cusHttp ++ b) := by
      rw [removePro_append_hfree a _ ha, removePro_cusHttp_inert b (removePro_hfree b hb)]
    have hcus : removePat cusHttps cusHttp (a ++ (cusHttp ++ b)) = a ++ b := by
      rw [removeCus_append_hfree a _ ha, removeCus_cusHttp]
    rw [resolveURL_mk]
    simp only [SteamAPIController.resolveURLList, hg, Bool.or_true, if_true, hpro, hcus]
  · have hg : occursPat proHttps proHttp (a ++ (proHttp ++ (b ++ (cusHttp ++ c)))) = true := by
      rw [occursPro_append_hfree a _ ha, occursPro_proHttp]
    have hpro : removePat proHttps proHttp (a ++ (proHttp ++ (b ++ (cusHttp ++ c)))) =
        a ++ (b ++ (cusHttp ++ c)) := by
      rw [removePro_append_hfree a _ ha, removePro_proHttp]
    have hcus : removePat cusHttps cusHttp (a ++ (b ++ (cusHttp ++ c))) = a ++ (b ++ c) := by
      rw [removeCus_append_hfree a _ ha, removeCus_append_hfree b _ hb, removeCus_cusHttp]
    rw [resolveURL_mk]
    simp only [SteamAPIController.resolveURLList, hg, Bool.true_or, if_true, hpro, hcus]

/-- Witness for C10 at a concrete context containing slashes before and
after the interior prefix occurrence. -/
theorem C10_unanchored_first_slash_only_witness :
    (∀ ch ∈ "x/".toList, ch ≠ 'h') ∧ (∀ ch ∈ "y/z".toList, ch ≠ 'h') ∧
      (∀ ch ∈ "w".toList, ch ≠ 'h') ∧
      (SteamAPIController.resolveURL (String.mk ("x/".toList ++ (proHttp ++ "y/z".toList))) =
        String.mk (removeChar '/' ("x/".toList ++ "y/z".toList)) ∧
        SteamAPIController.resolveURL "http://steamcommunity.com/profiles/c/d/e/" = "cd/e/") :=
  ⟨by decide, by decide, by decide,
    ((C10_unanchored_first_slash_only "x/".toList "y/z".toList "w".toList
        (by decide) (by decide) (by decide)).2.1),
    ((C10_unanchored_first_slash_only "x/".toList "y/z".toList "w".toList
        (by decide) (by decide) (by decide)).2.2.2.2)⟩

theorem resolveVanityUrl_urls (parse : Parse) (net : String → NetReply VanityURLResponse)
    (st : ApiState) (v : String) :
    (SteamAPIController.resolveVanityUrl parse net st v).2 =
      [SteamAPIController.vanityRequestURL st v] := by
  simp only [SteamAPIController.resolveVanityUrl]
  cases hn : net (SteamAPIController.vanityRequestURL st v) with
  | reject => simp
  | resolve r =>
    cases r with
    | none => simp
    | some resp =>
      cases hsid : resp.data.response.steamid with
      | none => simp [hsid]
      | some s => by_cases hs : s = "" <;> cases hp : parse s <;> simp [hsid, hs, hp]

theorem GetPlayerSummaries_urls (parse : Parse) (netS : String → NetReply PlayerSummaryResponse)
    (st : ApiState) (targets : List SteamIDResolvable) (ids : List String)
    (hconv : SteamAPIController.SteamIDResolvablesToSteamID64 parse targets = Except.ok ids)
    (hlen : targets.length ≤ 100) :
    (SteamAPIController.GetPlayerSummaries parse netS st targets).2 =
      [SteamAPIController.summariesRequestURL st ids] := by
  have hnot : ¬ targets.length > 100 := by omega
  simp only [SteamAPIController.GetPlayerSummaries, hconv, if_neg hnot]
  cases hn : netS (SteamAPIController.summariesRequestURL st ids) with
  | reject => simp
  | resolve r =>
    cases r with
    | none => simp
    | some resp => cases hp : resp.data.response.players <;> simp [hp]

/-- Claim C7: a bulk fetch whose remote response carries no player entries
(`players` absent or empty) returns the empty array rather than an error;
this holds for `GetPlayerSummaries`, `GetPlayerBans`, and the legacy
`getPlayerSummaries` of `src/index.ts`. -/
theorem C7_empty_players_empty_array (parse : Parse) (st : ApiState)
    (targets : List SteamIDResolvable) (ids : List String)
    (resp : PlayerSummaryResponse) (respB : BansResponse) (respL : PlayerSummaryResponse)
    (legacyTargets : List String)
    (hlen : targets.length ≤ 100)
    (hconv : SteamAPIController.SteamIDResolvablesToSteamID64 parse targets = Except.ok ids)
    (hresp : resp.data.response.players = none ∨ resp.data.response.players = some [])
    (hrespB : respB.players = none ∨ respB.players = some [])
    (hrespL : respL.data.response.players = none ∨ respL.data.response.players = some [])
    (hlenL : legacyTargets.length ≤ 100) :
    SteamAPIController.GetPlayerSummaries parse (fun _ => NetReply.resolve (some resp))
        st targets = (Except.ok [], [SteamAPIController.summariesRequestURL st ids]) ∧
      SteamAPIController.GetPlayerBans parse (fun _ => NetReply.resolve (some respB))
        st targets = (Except.ok [], [SteamAPIController.bansRequestURL st ids]) ∧
      Legacy.getPlayerSummaries (fun _ => NetReply.resolve (some respL)) st legacyTargets =
        (Except.ok [], [Legacy.summariesRequestURL st legacyTargets]) := by
  have hnot : ¬ targets.length > 100 := by omega
  have hnotL : ¬ legacyTargets.length > 100 := by omega
  refine ⟨?_, ?_, ?_⟩
  · rcases hresp with h | h <;>
      simp [SteamAPIController.GetPlayerSummaries, hnot, hconv, h]
  · rcases hrespB with h | h <;>
      simp [SteamAPIController.GetPlayerBans, hnot, hconv, h]
  · rcases hrespL with h | h <;>
      simp [Legacy.getPlayerSummaries, hnotL, h]

/-- Witness for C7 at a one-element target list and concrete empty-payload
responses. -/
theorem C7_empty_players_empty_array_witness :
    ([SteamIDResolvable.sid ⟨1⟩].length ≤ 100) ∧
      SteamAPIController.SteamIDResolvablesToSteamID64 parseSteamID
        [SteamIDResolvable.sid ⟨1⟩] = Except.ok ["1"] ∧
      SteamAPIController.GetPlayerSummaries parseSteamID
          (fun _ => NetReply.resolve (some ⟨⟨⟨none⟩⟩⟩)) initialApiState
          [SteamIDResolvable.sid ⟨1⟩] =
        (Except.ok [], [SteamAPIController.summariesRequestURL initialApiState ["1"]]) ∧
      SteamAPIController.GetPlayerBans parseSteamID
          (fun _ => NetReply.resolve (some ⟨none⟩)) initialApiState
          [SteamIDResolvable.sid ⟨1⟩] =
        (Except.ok [], [SteamAPIController.bansRequestURL initialApiState ["1"]]) ∧
      Legacy.getPlayerSummaries (fun _ => NetReply.resolve (some ⟨⟨⟨some []⟩⟩⟩))
          initialApiState ["1"] =
        (Except.ok [], [Legacy.summariesRequestURL initialApiState ["1"]]) := by
  refine ⟨by decide, by decide, ?_⟩
  exact C7_empty_players_empty_array parseSteamID initialApiState
    [SteamIDResolvable.sid ⟨1⟩] ["1"] ⟨⟨⟨none⟩⟩⟩ ⟨none⟩ ⟨⟨⟨some []⟩⟩⟩ ["1"]
    (by decide) (by decide) (Or.inl rfl) (Or.inl rfl) (Or.inr rfl) (by decide)

theorem GetPlayerBans_urls (parse : Parse) (netB : String → NetReply BansResponse)
    (st : ApiState) (targets : List SteamIDResolvable) (ids : List String)
    (hconv : SteamAPIController.SteamIDResolvablesToSteamID64 parse targets = Except.ok ids)
    (hlen : targets.length ≤ 100) :
    (SteamAPIController.GetPlayerBans parse netB st targets).2 =
      [SteamAPIController.bansRequestURL st ids] := by
  have hnot : ¬ targets.length > 100 := by omega
  simp only [SteamAPIController.GetPlayerBans, hconv, if_neg hnot]
  cases hn : netB (SteamAPIController.bansRequestURL st ids) with
  | reject => simp
  | resolve r =>
    cases r with
    | none => simp
    | some resp => cases hp : resp.players <;> simp [hp]

theorem legacyGetPlayerSummaries_urls (net : String → NetReply PlayerSummaryResponse)
    (st : ApiState) (targets : List String) (hlen : targets.length ≤ 100) :
    (Legacy.getPlayerSummaries net st targets).2 =
      [Legacy.summariesRequestURL st targets] := by
  have hnot : ¬ targets.length > 100 := by omega
  simp only [Legacy.getPlayerSummaries, if_neg hnot]
  cases hn : net (Legacy.summariesRequestURL st targets) with
  | reject => simp
  | resolve r =>
    cases r with
    | none => simp
    | some resp => cases hp : resp.data.response.players <;> simp [hp]

theorem legacyResolveVanityUrl_urls (net : String → NetReply VanityURLResponse)
    (st : ApiState) (v : String) :
    (Legacy.resolveVanityUrl net st v).2 =
      [SteamAPIController.vanityRequestURL st v] := by
  simp only [Legacy.resolveVanityUrl]
  cases hn : net (SteamAPIController.vanityRequestURL st v) with
  | reject => simp
  | resolve r =>
    cases r with
    | none => simp
    | some resp =>
      cases hsid : resp.data.response.steamid with
      | none => simp [hsid]
      | some s => by_cases hs : s = "" <;> simp [hsid, hs]

/-- Claim C8: the access-key configuration is one explicit slot with the
empty string (no key) as its initial value; the setter stores any argument
verbatim with no validation; and every network-dependent call —
`resolveVanityUrl`, `GetPlayerSummaries`, `GetPlayerBans`, and the legacy
`getPlayerSummaries` and `resolveVanityUrl` of `src/index.ts` — reads the
slot when building the request URL it contacts (its contacted-URL log is
the one URL built by concatenating the slot's current value into the
query string). -/
theorem C8_api_key_slot (k : String) (st : ApiState) (parse : Parse)
    (net : String → NetReply VanityURLResponse) (v : String)
    (netS : String → NetReply PlayerSummaryResponse)
    (netB : String → NetReply BansResponse)
    (netL : String → NetReply PlayerSummaryResponse)
    (netLV : String → NetReply VanityURLResponse)
    (targets : List SteamIDResolvable) (ids : List String)
    (legacyTargets : List String)
    (hconv : SteamAPIController.SteamIDResolvablesToSteamID64 parse targets = Except.ok ids)
    (hlen : targets.length ≤ 100)
    (hlenL : legacyTargets.length ≤ 100) :
    initialApiState.apiKey = "" ∧
      SteamAPIController.setApiKey k st = ⟨k⟩ ∧
      (SteamAPIController.resolveVanityUrl parse net st v).2 =
        [SteamAPIController.vanityRequestURL st v] ∧
      SteamAPIController.vanityRequestURL st v =
        "http://api.steampowered.com/ISteamUser/ResolveVanityURL/v0001/?key=" ++ st.apiKey
          ++ "&vanityurl=" ++ v ∧
      (SteamAPIController.GetPlayerSummaries parse netS st targets).2 =
        [SteamAPIController.summariesRequestURL st ids] ∧
      SteamAPIController.summariesRequestURL st ids =
        "http://api.steampowered.com/ISteamUser/GetPlayerSummaries/v0002/?key=" ++ st.apiKey
          ++ "&steamids=" ++ String.intercalate "," ids ∧
      (SteamAPIController.GetPlayerBans parse netB st targets).2 =
        [SteamAPIController.bansRequestURL st ids] ∧
      SteamAPIController.bansRequestURL st ids =
        "http://api.steampowered.com/ISteamUser/GetPlayerBans/v1/?key=" ++ st.apiKey
          ++ "&steamids=" ++ String.intercalate "," ids ∧
      (Legacy.getPlayerSummaries netL st legacyTargets).2 =
        [Legacy.summariesRequestURL st legacyTargets] ∧
      Legacy.summariesRequestURL st legacyTargets =
        "http://api.steampowered.com/ISteamUser/GetPlayerSummaries/v0002/?key=" ++ st.apiKey
          ++ "&steamids=" ++ String.intercalate "," legacyTargets ∧
      (Legacy.resolveVanityUrl netLV st v).2 =
        [SteamAPIController.vanityRequestURL st v] :=
  ⟨rfl, rfl, resolveVanityUrl_urls parse net st v, rfl,
    GetPlayerSummaries_urls parse netS st targets ids hconv hlen, rfl,
    GetPlayerBans_urls parse netB st targets ids hconv hlen, rfl,
    legacyGetPlayerSummaries_urls netL st legacyTargets hlenL, rfl,
    legacyResolveVanityUrl_urls netLV st v⟩

/-- Witness for C8 at a concrete key, state and target list, exercising all
five network-dependent calls. -/
theorem C8_api_key_slot_witness :
    SteamAPIController.SteamIDResolvablesToSteamID64 parseSteamID
        [SteamIDResolvable.sid ⟨1⟩] = Except.ok ["1"] ∧
      ([SteamIDResolvable.sid ⟨1⟩].length ≤ 100) ∧
      ((["1"] : List String).length ≤ 100) ∧
      (initialApiState.apiKey = "" ∧
        SteamAPIController.setApiKey "KEY" ⟨"KEY"⟩ = ⟨"KEY"⟩ ∧
        (SteamAPIController.resolveVanityUrl parseSteamID (fun _ => NetReply.reject)
            ⟨"KEY"⟩ "v").2 = [SteamAPIController.vanityRequestURL ⟨"KEY"⟩ "v"] ∧
        SteamAPIController.vanityRequestURL ⟨"KEY"⟩ "v" =
          "http://api.steampowered.com/ISteamUser/ResolveVanityURL/v0001/?key="
            ++ (⟨"KEY"⟩ : ApiState).apiKey ++ "&vanityurl=" ++ "v" ∧
        (SteamAPIController.GetPlayerSummaries parseSteamID (fun _ => NetReply.reject)
            ⟨"KEY"⟩ [SteamIDResolvable.sid ⟨1⟩]).2 =
          [SteamAPIController.summariesRequestURL ⟨"KEY"⟩ ["1"]] ∧
        SteamAPIController.summariesRequestURL ⟨"KEY"⟩ ["1"] =
          "http://api.steampowered.com/ISteamUser/GetPlayerSummaries/v0002/?key="
            ++ (⟨"KEY"⟩ : ApiState).apiKey ++ "&steamids=" ++ String.intercalate "," ["1"] ∧
        (SteamAPIController.GetPlayerBans parseSteamID (fun _ => NetReply.reject)
            ⟨"KEY"⟩ [SteamIDResolvable.sid ⟨1⟩]).2 =
          [SteamAPIController.bansRequestURL ⟨"KEY"⟩ ["1"]] ∧
        SteamAPIController.bansRequestURL ⟨"KEY"⟩ ["1"] =
          "http://api.steampowered.com/ISteamUser/GetPlayerBans/v1/?key="
            ++ (⟨"KEY"⟩ : ApiState).apiKey ++ "&steamids=" ++ String.intercalate "," ["1"] ∧
        (Legacy.getPlayerSummaries (fun _ => NetReply.reject) ⟨"KEY"⟩ ["1"]).2 =
          [Legacy.summariesRequestURL ⟨"KEY"⟩ ["1"]] ∧
        Legacy.summariesRequestURL ⟨"KEY"⟩ ["1"] =
          "http://api.steampowered.com/ISteamUser/GetPlayerSummaries/v0002/?key="
            ++ (⟨"KEY"⟩ : ApiState).apiKey ++ "&steamids=" ++ String.intercalate "," ["1"] ∧
        (Legacy.resolveVanityUrl (fun _ => NetReply.reject) ⟨"KEY"⟩ "v").2 =
          [SteamAPIController.vanityRequestURL ⟨"KEY"⟩ "v"]) :=
  ⟨by decide, by decide, by decide,
    C8_api_key_slot "KEY" ⟨"KEY"⟩ parseSteamID (fun _ => NetReply.reject) "v"
      (fun _ => NetReply.reject) (fun _ => NetReply.reject) (fun _ => NetReply.reject)
      (fun _ => NetReply.reject) [SteamIDResolvable.sid ⟨1⟩] ["1"] ["1"]
      (by decide) (by decide) (by decide)⟩

/-- Counterexample to claim C9: a response that does contain a `steamid`
field, with the empty string as its value, makes `resolveVanityUrl` throw
`'Not a valid SteamID'` instead of returning that identifier — the mere
presence of the field does not decide success. -/
theorem C9_presence_counterexample :
    (⟨⟨⟨1, some "", none⟩⟩⟩ : VanityURLResponse).data.response.steamid = some "" ∧
      (SteamAPIController.resolveVanityUrl parseSteamID
        (fun _ => NetReply.resolve (some ⟨⟨⟨1, some "", none⟩⟩⟩))
        initialApiState "v").1 = Except.error ResolveError.notValidSteamID :=
  ⟨rfl, by decide⟩

/-- Claim C9 (amended): `resolveVanityUrl` decides success by the presence
of a nonempty `steamid` accepted by the identifier constructor, never by
the `success` field: a present nonempty `steamid` yields the constructed
identifier (or the constructor's own error), an absent or empty `steamid`
yields the `'Not a valid SteamID'` throw, responses differing only in
`success` yield identical results, and the legacy variant behaves the same
way, returning the raw string. -/
theorem C9_success_never_inspected (parse : Parse) (st : ApiState) (v : String)
    (resp : VanityURLResponse) :
    (∀ s, resp.data.response.steamid = some s → s ≠ "" →
        (SteamAPIController.resolveVanityUrl parse (fun _ => NetReply.resolve (some resp))
            st v).1 =
          (match parse s with
           | some sid => Except.ok sid
           | none => Except.error ResolveError.invalidFormat)) ∧
      ((resp.data.response.steamid = none ∨ resp.data.response.steamid = some "") →
        (SteamAPIController.resolveVanityUrl parse (fun _ => NetReply.resolve (some resp))
            st v).1 = Except.error ResolveError.notValidSteamID) ∧
      (∀ n1 n2 sid msg,
        SteamAPIController.resolveVanityUrl parse
            (fun _ => NetReply.resolve (some ⟨⟨⟨n1, sid, msg⟩⟩⟩)) st v =
          SteamAPIController.resolveVanityUrl parse
            (fun _ => NetReply.resolve (some ⟨⟨⟨n2, sid, msg⟩⟩⟩)) st v) ∧
      (∀ s, resp.data.response.steamid = some s → s ≠ "" →
        (Legacy.resolveVanityUrl (fun _ => NetReply.resolve (some resp)) st v).1 =
          Except.ok s) ∧
      ((resp.data.response.steamid = none ∨ resp.data.response.steamid = some "") →
        (Legacy.resolveVanityUrl (fun _ => NetReply.resolve (some resp)) st v).1 =
          Except.error ResolveError.notValidSteamID) := by
  refine ⟨?_, ?_, ?_, ?_, ?_⟩
  · intro s hs hne
    simp only [SteamAPIController.resolveVanityUrl, hs, if_neg hne]
    cases hp : parse s <;> simp [hp]
  · rintro (h | h) <;> simp [SteamAPIController.resolveVanityUrl, h]
  · intro n1 n2 sid msg
    cases sid with
    | none => rfl
    | some s =>
      by_cases hs : s = "" <;>
        cases hp : parse s <;>
          simp [SteamAPIController.resolveVanityUrl, hs, hp]
  · intro s hs hne
    simp [Legacy.resolveVanityUrl, hs, if_neg hne]
  · rintro (h | h) <;> simp [Legacy.resolveVanityUrl, h]

/-- Witness for C9's amended theorem at a concrete response with a nonempty
`steamid`. -/
theorem C9_success_never_inspected_witness :
    (⟨⟨⟨1, some "765", none⟩⟩⟩ : VanityURLResponse).data.response.steamid = some "765" ∧
      ("765" ≠ "") ∧
      (SteamAPIController.resolveVanityUrl parseSteamID
          (fun _ => NetReply.resolve (some ⟨⟨⟨1, some "765", none⟩⟩⟩))
          initialApiState "v").1 =
        (match parseSteamID "765" with
         | some sid => Except.ok sid
         | none => Except.error ResolveError.invalidFormat) :=
  ⟨rfl, by decide,
    (C9_success_never_inspected parseSteamID initialApiState "v"
      ⟨⟨⟨1, some "765", none⟩⟩⟩).1 "765" rfl (by decide)⟩
